import Mathlib

/-!
Shallow embedding of the mGB-MCP bridge (src/types.ts and src/index.ts).

JavaScript runtime values are modelled by `JsValue`, with numbers as `Int`
(the verified claims only involve integer bounds), objects as association
lists and arrays as lists.  A JavaScript expression that throws a
`TypeError` (property access on `null` or `undefined`) is modelled by the
`Except Unit` monad: `.error ()` stands for a thrown exception.
-/

namespace Mgb

/-- Model of an untyped JavaScript value. -/
inductive JsValue where
  | null
  | undefined
  | bool (b : Bool)
  | num (n : Int)
  | str (s : String)
  | arr (elems : List JsValue)
  | obj (fields : List (String × JsValue))

/-- First-occurrence lookup in an association list (JS object property read). -/
def getKey {α : Type} : List (String × α) → String → Option α
  | [], _ => none
  | (k, v) :: rest, key => if k = key then some v else getKey rest key

/-- JS object property assignment `o[key] = v`: overwrite the existing slot
in place, or append a fresh slot when the key is absent. -/
def setKey {α : Type} : List (String × α) → String → α → List (String × α)
  | [], key, v => [(key, v)]
  | (k, w) :: rest, key, v =>
      if k = key then (k, v) :: rest else (k, w) :: setKey rest key v

/-- Property access `v.k`: throws a TypeError on `null` and `undefined`,
yields `undefined` on primitives and on missing keys of objects. -/
def getProp : JsValue → String → Except Unit JsValue
  | .null, _ => .error ()
  | .undefined, _ => .error ()
  | .obj fields, k => .ok ((getKey fields k).getD .undefined)
  | _, _ => .ok .undefined

/-- Total property access; agrees with `getProp` whenever the latter does
not throw (used after a guard has ruled out `null`/`undefined`). -/
def propD (v : JsValue) (k : String) : JsValue :=
  ((getProp v k).toOption).getD .undefined

/-- JS truthiness of a value. -/
def jsTruthy : JsValue → Bool
  | .null => false
  | .undefined => false
  | .bool b => b
  | .num n => n != 0
  | .str s => s ≠ ""
  | .arr _ => true
  | .obj _ => true

/-- Model of `typeof v === "number"`. -/
def isNumber : JsValue → Bool
  | .num _ => true
  | _ => false

/-- Model of `typeof v === "boolean"`. -/
def isBool : JsValue → Bool
  | .bool _ => true
  | _ => false

/-- Model of `typeof v === "string"`. -/
def isString : JsValue → Bool
  | .str _ => true
  | _ => false

/-- Model of `v === <the string s>` (strict equality against a string literal). -/
def isStr (v : JsValue) (s : String) : Bool :=
  match v with
  | .str t => t = s
  | _ => false

/-- Model of `typeof v === "number" && v >= lo && v <= hi`. -/
def numInRange (v : JsValue) (lo hi : Int) : Bool :=
  match v with
  | .num n => decide (lo ≤ n) && decide (n ≤ hi)
  | _ => false

/-- Model of `[1, 2, 3].includes(v)` (strict equality membership). -/
def oneTwoThree (v : JsValue) : Bool :=
  match v with
  | .num n => n == 1 || n == 2 || n == 3
  | _ => false

/-- Model of `<string list>.includes(v)` (strict equality membership). -/
def strIncludes (l : List String) (v : JsValue) : Bool :=
  match v with
  | .str s => decide (s ∈ l)
  | _ => false

/-- Model of `Array.isArray(v) && v.every(p)`. -/
def isArrayOf (p : JsValue → Bool) : JsValue → Bool
  | .arr xs => xs.all p
  | _ => false

/-- Model of the string coercion used by template literals, `String(v)`.
Array elements that are `null`/`undefined` join as empty strings. -/
def jsToString : JsValue → String
  | .null => "null"
  | .undefined => "undefined"
  | .bool b => cond b "true" "false"
  | .num n => toString n
  | .str s => s
  | .arr xs => String.intercalate "," (xs.attach.map fun x =>
      match x with
      | ⟨.null, _⟩ => ""
      | ⟨.undefined, _⟩ => ""
      | ⟨v, _⟩ => jsToString v)
  | .obj _ => "[object Object]"
termination_by v => sizeOf v
decreasing_by
  all_goals simp_wf
  all_goals (rename_i hm; have := List.sizeOf_lt_of_mem hm; omega)

/-!
Validators of src/types.ts.  Each function mirrors the corresponding
type-guard; the `Except Unit` result records that JS property access on a
`null`/`undefined` argument throws a TypeError inside the guard.
-/

/-- Validator `isSetBpmArgs` (types.ts):
`typeof args.bpm === "number" && args.bpm >= 60 && args.bpm <= 300`. -/
def isSetBpmArgs (args : JsValue) : Except Unit Bool := do
  let bpm ← getProp args "bpm"
  pure (numInRange bpm 60 300)

/-- Validator `isToggleStepArgs` (types.ts). -/
def isToggleStepArgs (args : JsValue) : Except Unit Bool := do
  let row ← getProp args "row"
  let col ← getProp args "col"
  pure (isNumber row && isNumber col)

/-- Validator `isSetNoteArgs` (types.ts): `divide` may be absent, otherwise
it must be one of 1, 2, 3; `note` must be a number in [0, 127]. -/
def isSetNoteArgs (args : JsValue) : Except Unit Bool := do
  let divide ← getProp args "divide"
  let validDivide :=
    match divide with
    | .undefined => true
    | d => oneTwoThree d
  let row ← getProp args "row"
  let col ← getProp args "col"
  let note ← getProp args "note"
  pure (isNumber row && isNumber col && numInRange note 0 127 && validDivide)

/-- The nine admissible `type` discriminators of a batch update item. -/
def validTypes : List String :=
  ["sequence", "note", "divide",
   "sequence_row", "note_row", "divide_row",
   "sequence_all", "note_all", "divide_all"]

/-- One iteration of the `args.updates.every(...)` callback in
`isBatchUpdateArgs` (types.ts): checks a single batch item against the
schema of its `type` variant. -/
def batchItemCheck (u : JsValue) : Except Unit Bool := do
  let t ← getProp u "type"
  if strIncludes validTypes t = false then
    pure false
  else
    match t with
    | .str "sequence" => do
        let row ← getProp u "row"
        let col ← getProp u "col"
        let state ← getProp u "state"
        pure (isNumber row && isNumber col && isBool state)
    | .str "note" => do
        let row ← getProp u "row"
        let col ← getProp u "col"
        let note ← getProp u "note"
        pure (isNumber row && isNumber col && numInRange note 0 127)
    | .str "divide" => do
        let row ← getProp u "row"
        let col ← getProp u "col"
        let divide ← getProp u "divide"
        pure (isNumber row && isNumber col && oneTwoThree divide)
    | .str "sequence_row" => do
        let row ← getProp u "row"
        let states ← getProp u "states"
        pure (isNumber row && isArrayOf isBool states)
    | .str "note_row" => do
        let row ← getProp u "row"
        let notes ← getProp u "notes"
        pure (isNumber row && isArrayOf (fun n => numInRange n 0 127) notes)
    | .str "divide_row" => do
        let row ← getProp u "row"
        let divides ← getProp u "divides"
        pure (isNumber row && isArrayOf oneTwoThree divides)
    | .str "sequence_all" => do
        let states ← getProp u "states"
        pure (isArrayOf (isArrayOf isBool) states)
    | .str "note_all" => do
        let notes ← getProp u "notes"
        pure (isArrayOf (isArrayOf (fun n => numInRange n 0 127)) notes)
    | .str "divide_all" => do
        let divides ← getProp u "divides"
        pure (isArrayOf (isArrayOf oneTwoThree) divides)
    | _ => pure false

/-- Short-circuiting `updates.every(...)`: stops at the first item that
fails, exactly as the JS iteration does. -/
def batchItemsCheck : List JsValue → Except Unit Bool
  | [] => .ok true
  | u :: rest => do
      let b ← batchItemCheck u
      if b then batchItemsCheck rest else pure false

/-- Validator `isBatchUpdateArgs` (types.ts): `args.updates` must be an
array and every item must pass `batchItemCheck`. -/
def isBatchUpdateArgs (args : JsValue) : Except Unit Bool := do
  let updates ← getProp args "updates"
  match updates with
  | .arr items => batchItemsCheck items
  | _ => pure false

/-- Validator `isSendPresetArgs` (types.ts). -/
def isSendPresetArgs (args : JsValue) : Except Unit Bool := do
  let preset ← getProp args "preset"
  pure (isString preset)

/-- Validator `isChangeMidiOutputArgs` (types.ts). -/
def isChangeMidiOutputArgs (args : JsValue) : Except Unit Bool := do
  let port ← getProp args "port"
  pure (isString port)

/-- Validator `isChangeMidiInputArgs` (types.ts). -/
def isChangeMidiInputArgs (args : JsValue) : Except Unit Bool := do
  let port ← getProp args "port"
  pure (isString port)

/-- Validator `isToggleMidiClockArgs` (types.ts). -/
def isToggleMidiClockArgs (args : JsValue) : Except Unit Bool := do
  let enabled ← getProp args "enabled"
  pure (isBool enabled)

/-- The five admissible track names. -/
def validTracks : List String := ["PU1", "PU2", "WAV", "NOISE", "POLY"]

/-- Model of the regular expression test used for string CC keys:
the string is "cc" followed by one or more decimal digits. -/
def ccStringOk (s : String) : Bool :=
  match s.data with
  | 'c' :: 'c' :: rest => !rest.isEmpty && rest.all Char.isDigit
  | _ => false

/-- Inner helper `isValidCC` of `isUpdateCcArgs` (types.ts): a string of
shape "cc<digits>", or a number in [0, 127]. -/
def isValidCC : JsValue → Bool
  | .str s => ccStringOk s
  | .num n => decide (0 ≤ n) && decide (n ≤ 127)
  | _ => false

/-- Validator `isUpdateCcArgs` (types.ts). -/
def isUpdateCcArgs (args : JsValue) : Except Unit Bool := do
  let track ← getProp args "track"
  let cc ← getProp args "cc"
  let value ← getProp args "value"
  pure (strIncludes validTracks track && isValidCC cc && numInRange value 0 127)

/-!
Wire shapes and the bridge core of src/index.ts.
-/

/-- The typed device snapshot `MgbState` (types.ts); the wire constant
`type: "state"` is omitted as it carries no information. -/
structure MgbState where
  is_playing : Bool
  bpm : Int
  current_step : Int
  sequence : List (List Bool)
  note_values : List (List Int)
  midi_output : String
  midi_input : String
  midi_clock_enabled : Bool
  cc_values : List (String × List (String × Int))

/-- Status field of a `WsResponse`. -/
inductive RespStatus where
  | success
  | error
deriving DecidableEq

/-- The `WsResponse` shape (types.ts); the constant `type: "response"`
field is omitted. -/
structure WsResponse where
  status : RespStatus
  data : Option JsValue
  message : Option String

/-- An outbound command: the `command` name plus its flat payload fields. -/
structure WsCommand where
  command : String
  fields : List (String × JsValue)

/-- The fixed not-connected error message of `sendCommand`. -/
def notConnectedMsg : String := "Not connected to mGB MIDI sequencer"

/-- `MgbServer.sendCommand` (index.ts:266-299).  Inputs: the `isConnected`
flag, whether `wsClient` is non-null, the command, and the outcome the
transport write would have (`none` = the local write succeeds,
`some e` = `wsClient.send` throws an exception with message `e`).  Output:
the response the promise resolves with, paired with the list of commands
handed to `wsClient.send`.  The function is synchronous and total: it is a
function of the local connection state only, never of any inbound message,
and the promise always resolves (the write is wrapped in try/catch), so no
rejection path exists. -/
def sendCommand (isConnected hasClient : Bool) (writeError : Option String)
    (cmd : WsCommand) : WsResponse × List WsCommand :=
  if !isConnected || !hasClient then
    ({ status := .error, data := none, message := some notConnectedMsg }, [])
  else
    match writeError with
    | none =>
        ({ status := .success,
           data := some (.obj [("command", .str cmd.command)]),
           message := none }, [cmd])
    | some e =>
        ({ status := .error, data := none,
           message := some ("Error sending command: " ++ e) }, [cmd])

/-- Key normalization of the `cc_update` branch (index.ts:237): a numeric
cc becomes the string "cc<N>", anything else is used as an object key via
string coercion (a string is used as-is). -/
def normalizeCcKey : JsValue → String
  | .num n => "cc" ++ toString n
  | v => jsToString v

/-- The `cc_update` branch of the message handler (index.ts:226-240):
ignored when no snapshot has been cached yet; otherwise ensures the track
slot exists and stores the value under the normalized cc key. -/
def applyCcUpdate (cache : Option MgbState) (track : String) (cc : JsValue)
    (value : Int) : Option MgbState :=
  match cache with
  | none => none
  | some st =>
      let trackMap := (getKey st.cc_values track).getD []
      some { st with
        cc_values := setKey st.cc_values track
          (setKey trackMap (normalizeCcKey cc) value) }

/-- A decoded inbound message, after the `message.type` dispatch of the
`wsClient.on("message")` handler; `otherMsg` covers unknown discriminators
and parse failures, which are logged and dropped. -/
inductive InboundMsg where
  | stateMsg (st : MgbState)
  | responseMsg (r : WsResponse)
  | ccUpdateMsg (track : String) (cc : JsValue) (value : Int)
  | otherMsg

/-- Effect of one inbound message on the cached state (index.ts:212-244):
a full snapshot replaces the cache wholesale, a response is only logged,
a cc update is merged, everything else is dropped. -/
def onMessage (cache : Option MgbState) : InboundMsg → Option MgbState
  | .stateMsg st => some st
  | .responseMsg _ => cache
  | .ccUpdateMsg track cc value => applyCcUpdate cache track cc value
  | .otherMsg => cache

/-- Effect of the `wsClient.on("close")` handler (index.ts:251-262): the
connected flag is cleared and `connect()` is scheduled after
`5000 + Math.floor(r * 3000)` milliseconds, where `r` is the value a fresh
`Math.random()` call returns on this particular close event. -/
structure CloseEffect where
  connectedAfter : Bool
  reconnectDelayMs : Int

/-- The close handler, parameterized by the fresh random draw `r`. -/
def onClose (r : ℚ) : CloseEffect :=
  { connectedAfter := false, reconnectDelayMs := 5000 + Int.floor (r * 3000) }

/-- Model of `JSON.stringify` (up to whitespace and string escaping),
used for the `get_midi_ports` reply text. -/
def jsonStringify : JsValue → String
  | .null => "null"
  | .undefined => "undefined"
  | .bool b => cond b "true" "false"
  | .num n => toString n
  | .str s => "\"" ++ s ++ "\""
  | .arr xs => "[" ++ String.intercalate ","
      (xs.attach.map fun ⟨v, hv⟩ => jsonStringify v) ++ "]"
  | .obj fs => "\x7b" ++ String.intercalate ","
      (fs.attach.map fun ⟨(k, v), hv⟩ => "\"" ++ k ++ "\":" ++ jsonStringify v)
      ++ "\x7d"
termination_by v => sizeOf v
decreasing_by
  all_goals simp_wf
  · have := List.sizeOf_lt_of_mem hv; omega
  · have := List.sizeOf_lt_of_mem hv; simp at this; omega

/-- The MCP error a tool-call handler can throw. -/
inductive McpErr where
  | invalidParams (msg : String)
  | methodNotFound (msg : String)
  | internalError
deriving DecidableEq

/-- Result of one tool call: the outcome handed back to the MCP caller
(`.ok text` is a normal text content reply, `.error` a thrown `McpError`),
the transport writes performed, and the cache after the call. -/
structure ToolCallResult where
  outcome : Except McpErr String
  writes : List WsCommand
  cacheAfter : Option MgbState

/-- Model of `response.message || d` (JS falsy fallback). -/
def jsOrElse (o : Option String) (d : String) : String :=
  match o with
  | some s => if s = "" then d else s
  | none => d

/-- The shared reply shape of the ordinary tool cases: an error response
becomes an "Error: ..." text, a success response is rendered by the
case-specific text builder. -/
def reportResp (resp : WsResponse) (okText : WsResponse → String) : String :=
  match resp.status with
  | .error => "Error: " ++ jsOrElse resp.message "Unknown error"
  | .success => okText resp

/-- Model of `response.data?.k` followed by use as a value. -/
def dataProp (r : WsResponse) (k : String) : JsValue :=
  match r.data with
  | some d => propD d k
  | none => .undefined

/-- The `CallToolRequestSchema` handler (index.ts:727-1106), one branch per
`request.params.name`.  Inputs are the arguments value, the connection
state, the hypothetical outcome of a transport write, and the cached
device state (which no branch reads or assigns — the cache is mutated only
by the inbound-message handler, so every branch passes it through
unchanged).  A validator that throws (null/undefined arguments) is caught
by the surrounding try/catch and wrapped into an internal-error `McpError`;
a validator verdict of `false` raises an invalid-params `McpError`. -/
def callTool (name : String) (args : JsValue) (isConnected hasClient : Bool)
    (writeError : Option String) (cache : Option MgbState) : ToolCallResult :=
  match name with
  | "toggle_play" =>
      let sent := sendCommand isConnected hasClient writeError ⟨"toggle_play", []⟩
      ⟨.ok (reportResp sent.1 fun r =>
          "Playback " ++ cond (jsTruthy (dataProp r "is_playing")) "started" "stopped"),
        sent.2, cache⟩
  | "set_bpm" =>
      match isSetBpmArgs args with
      | .error _ => ⟨.error .internalError, [], cache⟩
      | .ok false => ⟨.error (.invalidParams "Invalid BPM arguments"), [], cache⟩
      | .ok true =>
          let sent := sendCommand isConnected hasClient writeError
            ⟨"set_bpm", [("bpm", propD args "bpm")]⟩
          ⟨.ok (reportResp sent.1 fun r =>
              "BPM set to " ++ jsToString (dataProp r "bpm")), sent.2, cache⟩
  | "toggle_step" =>
      match isToggleStepArgs args with
      | .error _ => ⟨.error .internalError, [], cache⟩
      | .ok false => ⟨.error (.invalidParams "Invalid toggle step arguments"), [], cache⟩
      | .ok true =>
          let sent := sendCommand isConnected hasClient writeError
            ⟨"toggle_step", [("row", propD args "row"), ("col", propD args "col")]⟩
          ⟨.ok (reportResp sent.1 fun r =>
              "Step [" ++ jsToString (dataProp r "row") ++ ", "
                ++ jsToString (dataProp r "col") ++ "] set to "
                ++ cond (jsTruthy (dataProp r "value")) "ON" "OFF"), sent.2, cache⟩
  | "set_note" =>
      match isSetNoteArgs args with
      | .error _ => ⟨.error .internalError, [], cache⟩
      | .ok false => ⟨.error (.invalidParams "Invalid set note arguments"), [], cache⟩
      | .ok true =>
          let base := [("row", propD args "row"), ("col", propD args "col"),
                       ("note", propD args "note")]
          let payload :=
            match propD args "divide" with
            | .undefined => base
            | d => base ++ [("divide", d)]
          let sent := sendCommand isConnected hasClient writeError ⟨"set_note", payload⟩
          ⟨.ok (reportResp sent.1 fun r =>
              let baseText := "Note at [" ++ jsToString (dataProp r "row") ++ ", "
                ++ jsToString (dataProp r "col") ++ "] set to "
                ++ jsToString (dataProp r "note")
              cond (jsTruthy (dataProp r "divide"))
                (baseText ++ " with division " ++ jsToString (dataProp r "divide"))
                baseText), sent.2, cache⟩
  | "send_preset" =>
      match isSendPresetArgs args with
      | .error _ => ⟨.error .internalError, [], cache⟩
      | .ok false => ⟨.error (.invalidParams "Invalid preset arguments"), [], cache⟩
      | .ok true =>
          let sent := sendCommand isConnected hasClient writeError
            ⟨"send_preset", [("preset", propD args "preset")]⟩
          ⟨.ok (reportResp sent.1 fun r =>
              "Preset \"" ++ jsToString (dataProp r "preset")
                ++ "\" applied successfully"), sent.2, cache⟩
  | "batch_update" =>
      match isBatchUpdateArgs args with
      | .error _ => ⟨.error .internalError, [], cache⟩
      | .ok false => ⟨.error (.invalidParams "Invalid batch update arguments"), [], cache⟩
      | .ok true =>
          let sent := sendCommand isConnected hasClient writeError
            ⟨"batch_update", [("updates", propD args "updates")]⟩
          ⟨.ok (reportResp sent.1 fun _ =>
              "Batch update completed successfully"), sent.2, cache⟩
  | "get_midi_ports" =>
      let sent := sendCommand isConnected hasClient writeError ⟨"get_available_ports", []⟩
      ⟨.ok (reportResp sent.1 fun r => jsonStringify (r.data.getD .undefined)),
        sent.2, cache⟩
  | "change_midi_output" =>
      match isChangeMidiOutputArgs args with
      | .error _ => ⟨.error .internalError, [], cache⟩
      | .ok false => ⟨.error (.invalidParams "Invalid MIDI output arguments"), [], cache⟩
      | .ok true =>
          let sent := sendCommand isConnected hasClient writeError
            ⟨"change_midi_output", [("port", propD args "port")]⟩
          ⟨.ok (reportResp sent.1 fun r =>
              "MIDI output changed to " ++ jsToString (dataProp r "port")), sent.2, cache⟩
  | "change_midi_input" =>
      match isChangeMidiInputArgs args with
      | .error _ => ⟨.error .internalError, [], cache⟩
      | .ok false => ⟨.error (.invalidParams "Invalid MIDI input arguments"), [], cache⟩
      | .ok true =>
          let sent := sendCommand isConnected hasClient writeError
            ⟨"change_midi_input", [("port", propD args "port")]⟩
          ⟨.ok (reportResp sent.1 fun r =>
              "MIDI input changed to " ++ jsToString (dataProp r "port")), sent.2, cache⟩
  | "toggle_midi_clock" =>
      match isToggleMidiClockArgs args with
      | .error _ => ⟨.error .internalError, [], cache⟩
      | .ok false => ⟨.error (.invalidParams "Invalid MIDI clock arguments"), [], cache⟩
      | .ok true =>
          let sent := sendCommand isConnected hasClient writeError
            ⟨"toggle_midi_clock", [("enabled", propD args "enabled")]⟩
          ⟨.ok (reportResp sent.1 fun r =>
              "MIDI clock "
                ++ cond (jsTruthy (dataProp r "midi_clock_enabled"))
                     "enabled" "disabled"), sent.2, cache⟩
  | "update_cc" =>
      match isUpdateCcArgs args with
      | .error _ => ⟨.error .internalError, [], cache⟩
      | .ok false => ⟨.error (.invalidParams "Invalid control change arguments"), [], cache⟩
      | .ok true =>
          let sent := sendCommand isConnected hasClient writeError
            ⟨"update_cc", [("track", propD args "track"), ("cc", propD args "cc"),
                           ("value", propD args "value")]⟩
          ⟨.ok ("CC update sent for " ++ jsToString (propD args "track") ++ " "
              ++ jsToString (propD args "cc") ++ " = "
              ++ jsToString (propD args "value")), sent.2, cache⟩
  | "update_synth_param" =>
      match getProp args "track", getProp args "param", getProp args "value" with
      | .ok track, .ok param, .ok value =>
          let sent := sendCommand isConnected hasClient writeError
            ⟨"update_cc", [("track", track), ("cc", param), ("value", value)]⟩
          ⟨.ok ("Synth parameter update sent for " ++ jsToString track ++ " "
              ++ jsToString param ++ " = " ++ jsToString value), sent.2, cache⟩
      | _, _, _ => ⟨.error .internalError, [], cache⟩
  | _ => ⟨.error (.methodNotFound ("Unknown tool: " ++ name)), [], cache⟩

/-- The JSON document the state resource read produces, as a record; the
field `errMsg` models the `_error` member (absent, i.e. `none`, when the
real cached state is returned). -/
structure StateDoc where
  is_playing : Bool
  bpm : Int
  current_step : Int
  sequence : List (List Bool)
  note_values : List (List Int)
  midi_output : String
  midi_input : String
  midi_clock_enabled : Bool
  cc_values : List (String × List (String × Int))
  errMsg : Option String

/-- The fixed dummy document of the resource handler, with the given
`_error` text (index.ts:359-370, 380-391, 402-413). -/
def defaultStateDoc (msg : String) : StateDoc :=
  { is_playing := false, bpm := 120, current_step := 0, sequence := [],
    note_values := [], midi_output := "", midi_input := "",
    midi_clock_enabled := false, cc_values := [], errMsg := some msg }

/-- Rendering of a cached snapshot as the resource document. -/
def stateDocOf (st : MgbState) : StateDoc :=
  { is_playing := st.is_playing, bpm := st.bpm, current_step := st.current_step,
    sequence := st.sequence, note_values := st.note_values,
    midi_output := st.midi_output, midi_input := st.midi_input,
    midi_clock_enabled := st.midi_clock_enabled, cc_values := st.cc_values,
    errMsg := none }

/-- The `ReadResourceRequestSchema` handler for the `mgb://state` resource
(index.ts:338-427).  When no snapshot is cached it fires a `get_state`
command; `cacheAtRecheck` is the cache when `currentState` is re-read after
that synchronous send (within one event-loop turn it necessarily equals
the original cache, since no inbound message can be processed in between). -/
def readStateResource (cache : Option MgbState) (isConnected hasClient : Bool)
    (writeError : Option String) (cacheAtRecheck : Option MgbState) : StateDoc :=
  match cache with
  | some st => stateDocOf st
  | none =>
      let sent := sendCommand isConnected hasClient writeError ⟨"get_state", []⟩
      if sent.1.status = .error then
        defaultStateDoc
          (jsOrElse sent.1.message "Failed to connect to mGB MIDI sequencer")
      else
        match cacheAtRecheck with
        | none => defaultStateDoc "mGB state is not available"
        | some st => stateDocOf st

/-- The tool names declared by the `ListToolsRequestSchema` handler
(index.ts:433-724), in declaration order. -/
def declaredToolNames : List String :=
  ["toggle_play", "set_bpm", "toggle_step", "set_note", "send_preset",
   "batch_update", "get_midi_ports", "change_midi_output",
   "change_midi_input", "toggle_midi_clock", "update_cc"]

/-- Modelled from the spec: the operation-surface names the specification
exposes to the tool-invocation layer (spec section 6), for comparison with
the dispatcher of the code. -/
def specSurfaceOperationNames : List String :=
  ["toggle_play", "set_bpm", "toggle_step", "set_note", "send_preset",
   "batch_update", "get_midi_ports", "change_midi_output",
   "change_midi_input", "toggle_midi_clock", "update_cc"]

/-- Modelled from the spec: the per-variant batch item schema of the spec
section 3 table (nine variants crossing granularity cell/row/grid with
attribute state/note/divide), as one total boolean predicate, for
comparison with the validator of the code. -/
def specBatchItemOk (u : JsValue) : Bool :=
  (isStr (propD u "type") "sequence" && isNumber (propD u "row")
    && isNumber (propD u "col") && isBool (propD u "state"))
  || (isStr (propD u "type") "note" && isNumber (propD u "row")
    && isNumber (propD u "col") && numInRange (propD u "note") 0 127)
  || (isStr (propD u "type") "divide" && isNumber (propD u "row")
    && isNumber (propD u "col") && oneTwoThree (propD u "divide"))
  || (isStr (propD u "type") "sequence_row" && isNumber (propD u "row")
    && isArrayOf isBool (propD u "states"))
  || (isStr (propD u "type") "note_row" && isNumber (propD u "row")
    && isArrayOf (fun n => numInRange n 0 127) (propD u "notes"))
  || (isStr (propD u "type") "divide_row" && isNumber (propD u "row")
    && isArrayOf oneTwoThree (propD u "divides"))
  || (isStr (propD u "type") "sequence_all"
    && isArrayOf (isArrayOf isBool) (propD u "states"))
  || (isStr (propD u "type") "note_all"
    && isArrayOf (isArrayOf (fun n => numInRange n 0 127)) (propD u "notes"))
  || (isStr (propD u "type") "divide_all"
    && isArrayOf (isArrayOf oneTwoThree) (propD u "divides"))

/-!
Helper lemmas.
-/

/-- Bind on a successful `Except` computation. -/
theorem okBind {ε α β : Type} (a : α) (f : α → Except ε β) :
    (Except.ok a >>= f : Except ε β) = f a := rfl

/-- Bind on a thrown `Except` computation. -/
theorem errBind {ε α β : Type} (e : ε) (f : α → Except ε β) :
    (Except.error e >>= f : Except ε β) = .error e := rfl

/-- Pure in the `Except` monad. -/
theorem pureExcept {ε α : Type} (a : α) : (pure a : Except ε α) = .ok a := rfl

/-- On every value other than `null` and `undefined`, property access does
not throw and yields the total access `propD`. -/
theorem getProp_eq_ok (v : JsValue) (hn : v ≠ .null) (hu : v ≠ .undefined)
    (k : String) : getProp v k = .ok (propD v k) := by
  cases v <;> simp_all [getProp, propD, Except.toOption]

/-- Looking up the key just set yields the new value. -/
theorem getKey_setKey_same {α : Type} (l : List (String × α)) (k : String)
    (v : α) : getKey (setKey l k v) k = some v := by
  induction l with
  | nil => simp [setKey, getKey]
  | cons hd tl ih =>
      obtain ⟨k1, v1⟩ := hd
      by_cases h : k1 = k <;> simp [setKey, getKey, h, ih]

/-- Setting the same key twice keeps only the second value. -/
theorem setKey_setKey_same {α : Type} (l : List (String × α)) (k : String)
    (v w : α) : setKey (setKey l k v) k w = setKey l k w := by
  induction l with
  | nil => simp [setKey]
  | cons hd tl ih =>
      obtain ⟨k1, v1⟩ := hd
      by_cases h : k1 = k <;> simp [setKey, h, ih]

/-- String coercion of a string value is the identity. -/
theorem jsToString_str (s : String) : jsToString (.str s) = s := by
  simp [jsToString]

/-!
Claim theorems.
-/

/-- Claim C1: while Connected (flag set, live client), `sendCommand` with a
succeeding local write resolves synchronously with
`status: success, data: (command: <name>)` — it is a function of the local
connection state and the write outcome only, never of any inbound message,
so it cannot wait for or correlate with one — and with a throwing local
write it resolves synchronously with `status: error` and the cause in the
message. -/
theorem sendCommand_connected_optimistic (cmd : WsCommand) (e : String) :
    sendCommand true true none cmd =
      ({ status := .success,
         data := some (.obj [("command", .str cmd.command)]),
         message := none }, [cmd])
    ∧ sendCommand true true (some e) cmd =
      ({ status := .error, data := none,
         message := some ("Error sending command: " ++ e) }, [cmd]) :=
  ⟨rfl, rfl⟩

/-- Claim C2: while Disconnected, `sendCommand` performs no transport write
(the write list is empty), resolves — it never rejects, being a total
function into a response value — and the response is
`status: error` with the message "Not connected to mGB MIDI sequencer",
which begins with "Not connected". -/
theorem sendCommand_disconnected_no_io (hasClient : Bool)
    (writeError : Option String) (cmd : WsCommand) :
    sendCommand false hasClient writeError cmd =
      ({ status := .error, data := none, message := some notConnectedMsg }, [])
    ∧ notConnectedMsg = "Not connected" ++ " to mGB MIDI sequencer" :=
  ⟨rfl, rfl⟩

/-- Claim C7: after a transport close with fresh random draw `r` in
`[0, 1)`, the connected flag is cleared and the reconnect delay is
`5000 + floor (r * 3000)` milliseconds, which lies in `[5000, 8000)`;
moreover the delay genuinely depends on the draw (two admissible draws
give different delays), so a fresh draw per close re-randomizes it. -/
theorem reconnect_delay_bounds (r : ℚ) (h0 : 0 ≤ r) (h1 : r < 1) :
    5000 ≤ (onClose r).reconnectDelayMs
    ∧ (onClose r).reconnectDelayMs < 8000
    ∧ (onClose r).reconnectDelayMs = 5000 + Int.floor (r * 3000)
    ∧ (onClose r).connectedAfter = false
    ∧ ∃ r1 r2 : ℚ, 0 ≤ r1 ∧ r1 < 1 ∧ 0 ≤ r2 ∧ r2 < 1 ∧
        (onClose r1).reconnectDelayMs ≠ (onClose r2).reconnectDelayMs := by
  have hnn : (0 : ℤ) ≤ Int.floor (r * 3000) :=
    Int.floor_nonneg.mpr (by positivity)
  have hlt : Int.floor (r * 3000) < 3000 := by
    apply Int.floor_lt.mpr
    push_cast
    linarith
  refine ⟨?_, ?_, rfl, rfl, 0, 1/2, by norm_num, by norm_num, by norm_num,
      by norm_num, ?_⟩
  · show 5000 ≤ 5000 + Int.floor (r * 3000)
    omega
  · show 5000 + Int.floor (r * 3000) < 8000
    omega
  · have e1 : (onClose 0).reconnectDelayMs = 5000 := by
      simp [onClose]
    have e2 : (onClose (1/2)).reconnectDelayMs = 6500 := by
      have h : ((1/2 : ℚ) * 3000) = ((1500 : ℤ) : ℚ) := by norm_num
      rw [show (onClose (1/2)).reconnectDelayMs
            = 5000 + Int.floor ((1/2 : ℚ) * 3000) from rfl, h, Int.floor_intCast]
      norm_num
    rw [e1, e2]
    omega

/-- Witness for C7 at the concrete draw 1/2. -/
theorem reconnect_delay_bounds_witness :
    5000 ≤ (onClose (1/2)).reconnectDelayMs
    ∧ (onClose (1/2)).reconnectDelayMs < 8000 := by
  have h := reconnect_delay_bounds (1/2) (by norm_num) (by norm_num)
  exact ⟨h.1, h.2.1⟩

/-- Claim C9: the `set_bpm` validator accepts a numeric bpm exactly when
`60 ≤ bpm ≤ 300`; in particular it accepts the inclusive bounds 60 and 300
and rejects 59 and 301. -/
theorem set_bpm_bounds :
    (∀ n : Int,
      (isSetBpmArgs (.obj [("bpm", .num n)]) = .ok true ↔ 60 ≤ n ∧ n ≤ 300))
    ∧ isSetBpmArgs (.obj [("bpm", .num 60)]) = .ok true
    ∧ isSetBpmArgs (.obj [("bpm", .num 300)]) = .ok true
    ∧ isSetBpmArgs (.obj [("bpm", .num 59)]) = .ok false
    ∧ isSetBpmArgs (.obj [("bpm", .num 301)]) = .ok false := by
  refine ⟨?_, rfl, rfl, rfl, rfl⟩
  intro n
  simp [isSetBpmArgs, getProp, getKey, okBind, pureExcept, numInRange]

/-- Claim C6: on any cache holding a state, applying the cc update
`(track PU1, cc 5, value 10)` and then `(track PU1, cc "cc5", value 10)`
yields exactly the cache either single update yields, because a numeric cc
`n` is normalized to the key "cc<n>" while a string cc is used as-is (the
last two conjuncts state the normalization in general). -/
theorem applyCcUpdate_idempotent_normalized (st : MgbState) :
    applyCcUpdate (applyCcUpdate (some st) "PU1" (.num 5) 10) "PU1" (.str "cc5") 10
      = applyCcUpdate (some st) "PU1" (.num 5) 10
    ∧ applyCcUpdate (some st) "PU1" (.num 5) 10
      = applyCcUpdate (some st) "PU1" (.str "cc5") 10
    ∧ (∀ (c : MgbState) (t : String) (n value : Int),
        applyCcUpdate (some c) t (.num n) value
          = applyCcUpdate (some c) t (.str ("cc" ++ toString n)) value)
    ∧ (∀ s : String, normalizeCcKey (.str s) = s) := by
  have hkey : ∀ s : String, normalizeCcKey (.str s) = s := by
    intro s
    simp [normalizeCcKey, jsToString_str]
  have hnum : ∀ n : Int, normalizeCcKey (.num n) = "cc" ++ toString n := by
    intro n
    simp [normalizeCcKey]
  refine ⟨?_, ?_, ?_, hkey⟩
  · simp only [applyCcUpdate, hkey, hnum]
    rw [show ("cc" ++ toString (5 : Int)) = "cc5" from rfl]
    simp [getKey_setKey_same, setKey_setKey_same]
  · simp only [applyCcUpdate, hkey, hnum]
    rw [show ("cc" ++ toString (5 : Int)) = "cc5" from rfl]
  · intro c t n value
    simp only [applyCcUpdate, hkey, hnum]

/-- Claim C8: a state-resource read while no snapshot was ever cached (and
none can arrive within the same synchronous turn) returns the fixed
default document — playing false, bpm 120, step 0, empty grids, empty port
names, clock off, empty cc map — with a populated `_error` field, in every
connection state and for every local write outcome, instead of failing. -/
theorem resource_read_default_document (isConnected hasClient : Bool)
    (writeError : Option String) :
    ∃ msg,
      readStateResource none isConnected hasClient writeError none
        = defaultStateDoc msg
      ∧ (defaultStateDoc msg).is_playing = false
      ∧ (defaultStateDoc msg).bpm = 120
      ∧ (defaultStateDoc msg).current_step = 0
      ∧ (defaultStateDoc msg).sequence = []
      ∧ (defaultStateDoc msg).note_values = []
      ∧ (defaultStateDoc msg).midi_output = ""
      ∧ (defaultStateDoc msg).midi_input = ""
      ∧ (defaultStateDoc msg).midi_clock_enabled = false
      ∧ (defaultStateDoc msg).cc_values = []
      ∧ (defaultStateDoc msg).errMsg = some msg := by
  cases isConnected <;> cases hasClient <;> rcases writeError with _ | e <;>
    exact ⟨_, rfl, rfl, rfl, rfl, rfl, rfl, rfl, rfl, rfl, rfl, rfl⟩

/-- Claim C3: a valid `update_cc` call (the validator accepts: track in
the enum, well-formed cc, value in 0..127) returns a success text at once,
in every connection state and for every local write outcome — the send
response is discarded, never awaited — and the call leaves the cache
untouched; the cache reflects the value only when a corresponding
`cc_update` push is processed (last conjunct). -/
theorem update_cc_immediate_ack (args : JsValue)
    (hv : isUpdateCcArgs args = .ok true)
    (isConnected hasClient : Bool) (writeError : Option String)
    (cache : Option MgbState) :
    (callTool "update_cc" args isConnected hasClient writeError cache).outcome
      = .ok ("CC update sent for " ++ jsToString (propD args "track") ++ " "
          ++ jsToString (propD args "cc") ++ " = "
          ++ jsToString (propD args "value"))
    ∧ (callTool "update_cc" args isConnected hasClient writeError cache).cacheAfter
      = cache
    ∧ (∀ (st : MgbState) (track : String) (cc : JsValue) (value : Int),
        ∃ st2 trackMap,
          onMessage (some st) (.ccUpdateMsg track cc value) = some st2
          ∧ getKey st2.cc_values track = some trackMap
          ∧ getKey trackMap (normalizeCcKey cc) = some value) := by
  refine ⟨?_, ?_, ?_⟩
  · simp [callTool, hv]
  · simp [callTool, hv]
  · intro st track cc value
    exact ⟨_, _, rfl, getKey_setKey_same _ _ _, getKey_setKey_same _ _ _⟩

/-- Witness for C3: the spec scenario `update_cc(track PU1, cc "cc1",
value 80)` issued while Disconnected still acknowledges success. -/
theorem update_cc_immediate_ack_witness :
    (callTool "update_cc"
        (.obj [("track", .str "PU1"), ("cc", .str "cc1"), ("value", .num 80)])
        false true none none).outcome
      = .ok "CC update sent for PU1 cc1 = 80" := by
  have h := update_cc_immediate_ack
    (.obj [("track", .str "PU1"), ("cc", .str "cc1"), ("value", .num 80)])
    rfl false true none none
  rw [h.1]
  have h80 : jsToString (JsValue.num 80) = "80" := by
    simp only [jsToString]
    rfl
  simp [propD, getProp, getKey, Except.toOption, jsToString_str, h80]

set_option maxHeartbeats 1600000 in
/-- Every per-item batch check returns a verdict (does not throw) when the
item itself is neither null nor undefined. -/
theorem batchItemCheck_isOk (u : JsValue) (hn : u ≠ .null) (hu : u ≠ .undefined) :
    ∃ b, batchItemCheck u = .ok b := by
  simp only [batchItemCheck, getProp_eq_ok u hn hu, okBind]
  split
  · exact ⟨false, rfl⟩
  · split <;>
      simp only [getProp_eq_ok u hn hu, okBind, pureExcept] <;>
      exact ⟨_, rfl⟩

/-- The short-circuiting batch iteration returns a verdict when every item
is neither null nor undefined. -/
theorem batchItemsCheck_isOk (items : List JsValue)
    (h : ∀ u ∈ items, u ≠ .null ∧ u ≠ .undefined) :
    ∃ b, batchItemsCheck items = .ok b := by
  induction items with
  | nil => exact ⟨true, rfl⟩
  | cons u rest ih =>
      obtain ⟨b, hb⟩ := batchItemCheck_isOk u (h u (by simp)).1 (h u (by simp)).2
      obtain ⟨c, hc⟩ := ih fun x hx => h x (by simp [hx])
      cases b
      · exact ⟨false, by simp [batchItemsCheck, hb, okBind, pureExcept]⟩
      · exact ⟨c, by simp [batchItemsCheck, hb, hc, okBind, pureExcept]⟩

/-- Claim C5 (amended): each validator returns a boolean verdict without
throwing on every argument value other than null and undefined — for
`isBatchUpdateArgs`, provided the items of a present `updates` array are
themselves neither null nor undefined.  On null and undefined the guards
throw a TypeError (see the counterexample theorem). -/
theorem validators_total_on_defined_inputs :
    (∀ v : JsValue, v ≠ .null → v ≠ .undefined →
      (∃ b, isSetBpmArgs v = .ok b) ∧ (∃ b, isToggleStepArgs v = .ok b)
      ∧ (∃ b, isSetNoteArgs v = .ok b) ∧ (∃ b, isSendPresetArgs v = .ok b)
      ∧ (∃ b, isChangeMidiOutputArgs v = .ok b)
      ∧ (∃ b, isChangeMidiInputArgs v = .ok b)
      ∧ (∃ b, isToggleMidiClockArgs v = .ok b)
      ∧ (∃ b, isUpdateCcArgs v = .ok b))
    ∧ (∀ v : JsValue, v ≠ .null → v ≠ .undefined →
        (∀ items, getProp v "updates" = .ok (.arr items) →
          ∀ u ∈ items, u ≠ .null ∧ u ≠ .undefined) →
        ∃ b, isBatchUpdateArgs v = .ok b) := by
  constructor
  · intro v hn hu
    refine ⟨?_, ?_, ?_, ?_, ?_, ?_, ?_, ?_⟩ <;>
      simp only [isSetBpmArgs, isToggleStepArgs, isSetNoteArgs,
        isSendPresetArgs, isChangeMidiOutputArgs, isChangeMidiInputArgs,
        isToggleMidiClockArgs, isUpdateCcArgs,
        getProp_eq_ok v hn hu, okBind, pureExcept] <;>
      exact ⟨_, rfl⟩
  · intro v hn hu hitems
    have hg := getProp_eq_ok v hn hu "updates"
    rcases hval : propD v "updates" with _ | _ | b | n | s | items | fs
    case arr =>
      rw [hval] at hg
      simp only [isBatchUpdateArgs, hg, okBind]
      exact batchItemsCheck_isOk items (hitems items hg)
    all_goals
      rw [hval] at hg
      simp only [isBatchUpdateArgs, hg, okBind]
      exact ⟨false, rfl⟩

/-- Counterexample for C5 as stated: on the input `null`, every one of the
nine validators throws a TypeError (property access on null) instead of
returning a boolean verdict. -/
theorem validators_throw_on_null :
    isSetBpmArgs .null = .error () ∧ isToggleStepArgs .null = .error ()
    ∧ isSetNoteArgs .null = .error () ∧ isBatchUpdateArgs .null = .error ()
    ∧ isSendPresetArgs .null = .error ()
    ∧ isChangeMidiOutputArgs .null = .error ()
    ∧ isChangeMidiInputArgs .null = .error ()
    ∧ isToggleMidiClockArgs .null = .error ()
    ∧ isUpdateCcArgs .null = .error () :=
  ⟨rfl, rfl, rfl, rfl, rfl, rfl, rfl, rfl, rfl⟩

/-- Witness for the amended C5 at two concrete inputs: the empty object
and an object holding an `updates` array with a number item. -/
theorem validators_total_witness :
    (∃ b, isSetBpmArgs (.obj []) = .ok b)
    ∧ (∃ b, isBatchUpdateArgs (.obj [("updates", .arr [.num 3])]) = .ok b) := by
  have h := validators_total_on_defined_inputs
  refine ⟨(h.1 (.obj []) (fun hx => nomatch hx) (fun hx => nomatch hx)).1,
    h.2 (.obj [("updates", .arr [.num 3])])
      (fun hx => nomatch hx) (fun hx => nomatch hx) ?_⟩
  intro items hitems u hu
  have : JsValue.arr [.num 3] = .arr items := by
    have hv : getProp (.obj [("updates", .arr [.num 3])]) "updates"
        = .ok (.arr [.num 3]) := rfl
    rw [hv] at hitems
    exact Except.ok.inj hitems
  obtain rfl : items = [JsValue.num 3] := (JsValue.arr.inj this).symm
  simp only [List.mem_singleton] at hu
  subst hu
  exact ⟨by simp, by simp⟩

set_option maxHeartbeats 1600000 in
/-- A single batch item passes the validator branch of the code exactly
when it satisfies the spec-side per-variant schema (a throwing item —
null/undefined — satisfies neither side). -/
theorem batchItemCheck_eq_spec (u : JsValue) :
    batchItemCheck u = .ok true ↔ specBatchItemOk u = true := by
  cases u with
  | null =>
      simp [batchItemCheck, getProp, errBind, specBatchItemOk, propD,
        Except.toOption, isStr]
  | undefined =>
      simp [batchItemCheck, getProp, errBind, specBatchItemOk, propD,
        Except.toOption, isStr]
  | bool b =>
      simp [batchItemCheck, getProp, okBind, pureExcept, specBatchItemOk,
        propD, Except.toOption, isStr, strIncludes]
  | num n =>
      simp [batchItemCheck, getProp, okBind, pureExcept, specBatchItemOk,
        propD, Except.toOption, isStr, strIncludes]
  | str s =>
      simp [batchItemCheck, getProp, okBind, pureExcept, specBatchItemOk,
        propD, Except.toOption, isStr, strIncludes]
  | arr xs =>
      simp [batchItemCheck, getProp, okBind, pureExcept, specBatchItemOk,
        propD, Except.toOption, isStr, strIncludes]
  | obj fs =>
      have hp : ∀ k, propD (.obj fs) k = (getKey fs k).getD .undefined := by
        intro k
        simp [propD, getProp, Except.toOption]
      rcases ht : (getKey fs "type").getD .undefined with _ | _ | b | n | s | xs | gs
      · simp [batchItemCheck, getProp, okBind, pureExcept, hp, ht,
          specBatchItemOk, isStr, strIncludes]
      · simp [batchItemCheck, getProp, okBind, pureExcept, hp, ht,
          specBatchItemOk, isStr, strIncludes]
      · simp [batchItemCheck, getProp, okBind, pureExcept, hp, ht,
          specBatchItemOk, isStr, strIncludes]
      · simp [batchItemCheck, getProp, okBind, pureExcept, hp, ht,
          specBatchItemOk, isStr, strIncludes]
      · by_cases h1 : s = "sequence"
        · subst h1
          simp [batchItemCheck, getProp, okBind, pureExcept, hp, ht,
            specBatchItemOk, isStr, strIncludes, validTypes]
        · by_cases h2 : s = "note"
          · subst h2
            simp [batchItemCheck, getProp, okBind, pureExcept, hp, ht,
              specBatchItemOk, isStr, strIncludes, validTypes]
          · by_cases h3 : s = "divide"
            · subst h3
              simp [batchItemCheck, getProp, okBind, pureExcept, hp, ht,
                specBatchItemOk, isStr, strIncludes, validTypes]
            · by_cases h4 : s = "sequence_row"
              · subst h4
                simp [batchItemCheck, getProp, okBind, pureExcept, hp, ht,
                  specBatchItemOk, isStr, strIncludes, validTypes]
              · by_cases h5 : s = "note_row"
                · subst h5
                  simp [batchItemCheck, getProp, okBind, pureExcept, hp, ht,
                    specBatchItemOk, isStr, strIncludes, validTypes]
                · by_cases h6 : s = "divide_row"
                  · subst h6
                    simp [batchItemCheck, getProp, okBind, pureExcept, hp, ht,
                      specBatchItemOk, isStr, strIncludes, validTypes]
                  · by_cases h7 : s = "sequence_all"
                    · subst h7
                      simp [batchItemCheck, getProp, okBind, pureExcept, hp, ht,
                        specBatchItemOk, isStr, strIncludes, validTypes]
                    · by_cases h8 : s = "note_all"
                      · subst h8
                        simp [batchItemCheck, getProp, okBind, pureExcept, hp,
                          ht, specBatchItemOk, isStr, strIncludes, validTypes]
                      · by_cases h9 : s = "divide_all"
                        · subst h9
                          simp [batchItemCheck, getProp, okBind, pureExcept,
                            hp, ht, specBatchItemOk, isStr, strIncludes,
                            validTypes]
                        · simp [batchItemCheck, getProp, okBind, pureExcept,
                            hp, ht, specBatchItemOk, isStr, strIncludes,
                            validTypes, h1, h2, h3, h4, h5, h6, h7, h8, h9]
      · simp [batchItemCheck, getProp, okBind, pureExcept, hp, ht,
          specBatchItemOk, isStr, strIncludes]
      · simp [batchItemCheck, getProp, okBind, pureExcept, hp, ht,
          specBatchItemOk, isStr, strIncludes]

/-- The short-circuiting batch iteration succeeds exactly when every item
passes the per-item check. -/
theorem batchItemsCheck_ok_true_iff (items : List JsValue) :
    batchItemsCheck items = .ok true
      ↔ ∀ u ∈ items, batchItemCheck u = .ok true := by
  induction items with
  | nil => simp [batchItemsCheck]
  | cons u rest ih =>
      rcases hb : batchItemCheck u with e | b
      · simp [batchItemsCheck, hb, errBind]
      · cases b
        · simp [batchItemsCheck, hb, okBind, pureExcept]
        · simp [batchItemsCheck, hb, okBind, pureExcept, ih]

/-- Claim C4: given an `updates` array, the batch validator accepts exactly
when every item satisfies its variant schema of the spec table (all nine
variants, note in 0..127, divide in 1..3); a rejected batch raises
invalid-params before any transport write, and an accepted batch hands the
transport exactly the one command carrying the full original list (written
only when a live connection exists). -/
theorem batch_update_all_or_nothing (args : JsValue) (items : List JsValue)
    (hu : getProp args "updates" = .ok (.arr items))
    (isConnected hasClient : Bool) (writeError : Option String)
    (cache : Option MgbState) :
    (isBatchUpdateArgs args = .ok true ↔ items.all specBatchItemOk = true)
    ∧ (isBatchUpdateArgs args = .ok false →
        (callTool "batch_update" args isConnected hasClient writeError
            cache).outcome
          = .error (.invalidParams "Invalid batch update arguments")
        ∧ (callTool "batch_update" args isConnected hasClient writeError
            cache).writes = [])
    ∧ (isBatchUpdateArgs args = .ok true →
        (callTool "batch_update" args isConnected hasClient writeError
            cache).writes
          = cond (isConnected && hasClient)
              [⟨"batch_update", [("updates", .arr items)]⟩] []) := by
  have hp : propD args "updates" = .arr items := by
    simp [propD, hu, Except.toOption]
  refine ⟨?_, ?_, ?_⟩
  · rw [show isBatchUpdateArgs args
        = (getProp args "updates" >>= fun updates =>
            match updates with
            | .arr items => batchItemsCheck items
            | _ => pure false) from rfl, hu, okBind]
    simp [batchItemsCheck_ok_true_iff, List.all_eq_true, batchItemCheck_eq_spec]
  · intro hfalse
    constructor <;> simp [callTool, hfalse]
  · intro htrue
    cases isConnected <;> cases hasClient <;> rcases writeError with _ | e <;>
      simp [callTool, htrue, hp, sendCommand]

/-- Witness for C4: a one-item batch — toggling cell (0, 3) on — passes
validation and is forwarded whole while Connected. -/
theorem batch_update_all_or_nothing_witness :
    (callTool "batch_update"
        (.obj [("updates", .arr [.obj [("type", .str "sequence"),
          ("row", .num 0), ("col", .num 3), ("state", .bool true)]])])
        true true none none).writes
      = [⟨"batch_update", [("updates", .arr [.obj [("type", .str "sequence"),
          ("row", .num 0), ("col", .num 3), ("state", .bool true)]])]⟩] := by
  have h := batch_update_all_or_nothing
    (.obj [("updates", .arr [.obj [("type", .str "sequence"),
      ("row", .num 0), ("col", .num 3), ("state", .bool true)]])])
    [.obj [("type", .str "sequence"), ("row", .num 0), ("col", .num 3),
      ("state", .bool true)]]
    rfl true true none none
  have ht := h.2.2 (h.1.mpr rfl)
  simpa using ht

/-- Claim C10 (amended): the dispatcher handles the tool name
`update_synth_param` although it appears neither in the declared tool list
nor in the spec operation surface; for every non-null, non-undefined
arguments value — no validator runs, the track/param/value fields are
taken as-is — it fires an `update_cc` command with the `param` field as
the cc key (the write happens exactly when a live connection exists),
returns an immediate success text in every connection state, and leaves
the cache untouched.  On null/undefined arguments the field access throws
(see the counterexample theorem). -/
theorem update_synth_param_undeclared_unvalidated :
    ("update_synth_param" ∉ declaredToolNames
      ∧ "update_synth_param" ∉ specSurfaceOperationNames)
    ∧ ∀ (args : JsValue), args ≠ .null → args ≠ .undefined →
      ∀ (isConnected hasClient : Bool) (writeError : Option String)
        (cache : Option MgbState),
        (callTool "update_synth_param" args isConnected hasClient writeError
            cache).outcome
          = .ok ("Synth parameter update sent for "
              ++ jsToString (propD args "track") ++ " "
              ++ jsToString (propD args "param") ++ " = "
              ++ jsToString (propD args "value"))
        ∧ (callTool "update_synth_param" args isConnected hasClient writeError
            cache).writes
          = cond (isConnected && hasClient)
              [⟨"update_cc", [("track", propD args "track"),
                ("cc", propD args "param"), ("value", propD args "value")]⟩] []
        ∧ (callTool "update_synth_param" args isConnected hasClient writeError
            cache).cacheAfter = cache := by
  refine ⟨⟨by decide, by decide⟩, ?_⟩
  intro args hn hu isConnected hasClient writeError cache
  have hg := getProp_eq_ok args hn hu
  refine ⟨?_, ?_, ?_⟩
  · simp [callTool, hg]
  · cases isConnected <;> cases hasClient <;> rcases writeError with _ | e <;>
      simp [callTool, hg, sendCommand]
  · simp [callTool, hg]

/-- Counterexample for C10 as stated: called with `undefined` arguments —
"any arguments whatsoever" — the handler does not return success: the
field access throws and the wrapper surfaces an internal error. -/
theorem update_synth_param_throws_on_undefined :
    (callTool "update_synth_param" .undefined true true none none).outcome
      = .error .internalError := rfl

/-- Witness for the amended C10: with an empty arguments object — hence no
track/param/value at all and nothing validated — the handler still
acknowledges success, rendering the missing fields as "undefined". -/
theorem update_synth_param_witness :
    (callTool "update_synth_param" (.obj []) true true none none).outcome
      = .ok "Synth parameter update sent for undefined undefined = undefined"
    := by
  have h := (update_synth_param_undeclared_unvalidated.2 (.obj [])
    (fun hx => nomatch hx) (fun hx => nomatch hx) true true none none).1
  rw [h]
  have hundef : jsToString JsValue.undefined = "undefined" := by
    simp [jsToString]
  simp [propD, getProp, getKey, Except.toOption, hundef]

end Mgb
